import Mathlib

/-!
Verification of the callback layer of the catalyst training library
(`src/dl/callbacks.py`): the learning-rate schedule family (`OneCycleLR`,
`LRFinder`), checkpoint retention and resume (`CheckpointCallback`), and
the optimizer step with decoupled weight decay
(`BasicOptimizerCallback`).

Numeric values computed by the Python code with float arithmetic are
modelled over `ℚ` where only field operations occur, and over `ℝ` where
the code takes roots or real powers (`clip_grad_norm_`,
`LRFinder.multiplier`).
-/

set_option maxHeartbeats 1000000

/-! ## Association-list lookup (Python dict access by key) -/

/-- Lookup by key in an ordered association list; models Python
`dict[key]` access (dicts in the code are keyed by strings and have
unique keys). -/
def lookupKey {α : Type} (k : String) : List (String × α) → Option α
  | [] => none
  | e :: t => if e.1 = k then some e.2 else lookupKey k t

theorem lookupKey_nil {α : Type} (k : String) : lookupKey (α := α) k [] = none := rfl

theorem lookupKey_cons {α : Type} (k : String) (e : String × α) (t : List (String × α)) :
    lookupKey k (e :: t) = if e.1 = k then some e.2 else lookupKey k t := rfl

/-- Lookup commutes with an entry-wise map that keeps keys. -/
theorem lookupKey_entry_map {α β : Type} (k : String) (f : String → α → β)
    (l : List (String × α)) :
    lookupKey k (l.map (fun e => (e.1, f e.1 e.2))) = Option.map (f k) (lookupKey k l) := by
  induction l with
  | nil => rfl
  | cons e t ih =>
      by_cases h : e.1 = k
      · simp [lookupKey, h]
      · simp [lookupKey, h, ih]

/-! ## OneCycleLR (src/dl/callbacks.py, lines 562-634)

The scheduler's mutable counters together with its constructor
parameters.  In the Python code `total_iter` and `cut_point` are `None`
until the first training loader-start; they are modelled as naturals
that `oneCycleOnLoaderStart` overwrites. -/

structure OneCycleLR where
  init_lr : ℚ
  cycle_len : ℕ
  div : ℚ
  cut_div : ℕ
  momentum_range : ℚ × ℚ
  total_iter : ℕ
  cut_point : ℕ
  cycle_iter : ℕ
  cycle_count : ℕ

/-- `OneCycleLR.__init__` (lines 568-596): counters start at zero;
`total_iter`/`cut_point` are unset (modelled as 0) until loader-start. -/
def mkOneCycleLR (init_lr : ℚ) (cycle_len : ℕ) (dv : ℚ) (cut_div : ℕ)
    (momentum_range : ℚ × ℚ) : OneCycleLR :=
  ⟨init_lr, cycle_len, dv, cut_div, momentum_range, 0, 0, 0, 0⟩

/-- `OneCycleLR.calc_lr` (lines 598-612): compute the learning rate from
the current `cycle_iter`, then advance the counter, wrapping to zero at
`total_iter` (and bumping `cycle_count`). -/
def oneCycleCalcLr (s : OneCycleLR) : ℚ × OneCycleLR :=
  let percent : ℚ :=
    if s.cut_point < s.cycle_iter then
      1 - ((s.cycle_iter : ℚ) - (s.cut_point : ℚ)) / ((s.total_iter : ℚ) - (s.cut_point : ℚ))
    else (s.cycle_iter : ℚ) / (s.cut_point : ℚ)
  let res := s.init_lr * (1 + percent * (s.div - 1)) / s.div
  (res,
    if s.cycle_iter + 1 = s.total_iter then
      { s with cycle_iter := 0, cycle_count := s.cycle_count + 1 }
    else
      { s with cycle_iter := s.cycle_iter + 1 })

/-- `OneCycleLR.calc_momentum` (lines 614-623): same branch structure as
`calc_lr` but with the complementary percent; does not move the counter. -/
def oneCycleCalcMomentum (s : OneCycleLR) : ℚ :=
  let percent : ℚ :=
    if s.cut_point < s.cycle_iter then
      ((s.cycle_iter : ℚ) - (s.cut_point : ℚ)) / ((s.total_iter : ℚ) - (s.cut_point : ℚ))
    else 1 - (s.cycle_iter : ℚ) / (s.cut_point : ℚ)
  s.momentum_range.2 + percent * (s.momentum_range.1 - s.momentum_range.2)

/-- `OneCycleLR.on_loader_start` (lines 625-634), training part: fix
`total_iter = len(loader) * cycle_len` and `cut_point = total_iter // cut_div`. -/
def oneCycleOnLoaderStart (loader_len : ℕ) (is_train : Bool) (s : OneCycleLR) : OneCycleLR :=
  if is_train then
    { s with total_iter := loader_len * s.cycle_len,
             cut_point := loader_len * s.cycle_len / s.cut_div }
  else s

/-- One scheduler update on a training batch, following
`LRUpdater.update_optimizer` (lines 535-549): `calc_lr()` runs first
(advancing `cycle_iter`), then `calc_momentum()` reads the
already-advanced counter.  Returns `((lr, momentum), new state)`. -/
def oneCycleUpdate (s : OneCycleLR) : (ℚ × ℚ) × OneCycleLR :=
  let p := oneCycleCalcLr s
  ((p.1, oneCycleCalcMomentum p.2), p.2)

/-- State after `k` calls of `calc_lr`. -/
def oneCycleIter (s : OneCycleLR) : ℕ → OneCycleLR
  | 0 => s
  | k + 1 => (oneCycleCalcLr (oneCycleIter s k)).2

/-- Value returned by the `k`-th `calc_lr` call (0-indexed). -/
def oneCycleNthLr (s : OneCycleLR) (k : ℕ) : ℚ := (oneCycleCalcLr (oneCycleIter s k)).1

/-- The learning-rate formula as the specification states it: with
`percent = i / cut_point` for `i ≤ cut_point` and
`percent = 1 - (i - cut_point)/(total_iter - cut_point)` for
`i > cut_point`, the lr is `init_lr * (1 + percent*(div-1)) / div`. -/
def oneCycleLrFormula (init_lr dv : ℚ) (total cut i : ℕ) : ℚ :=
  let percent : ℚ :=
    if i ≤ cut then (i : ℚ) / (cut : ℚ)
    else 1 - ((i : ℚ) - (cut : ℚ)) / ((total : ℚ) - (cut : ℚ))
  init_lr * (1 + percent * (dv - 1)) / dv

/-- The momentum formula of `calc_momentum` as a function of the counter
value `j` it actually reads. -/
def oneCycleMomFormula (total cut j : ℕ) : ℚ :=
  if cut < j then ((j : ℚ) - (cut : ℚ)) / ((total : ℚ) - (cut : ℚ))
  else 1 - (j : ℚ) / (cut : ℚ)

theorem oneCycleCalcLr_fst (s : OneCycleLR) :
    (oneCycleCalcLr s).1 = oneCycleLrFormula s.init_lr s.div s.total_iter s.cut_point s.cycle_iter := by
  simp only [oneCycleCalcLr, oneCycleLrFormula]
  rcases lt_or_ge s.cut_point s.cycle_iter with h | h
  · rw [if_pos h, if_neg (not_le.mpr h)]
  · rw [if_neg (not_lt.mpr h), if_pos (show s.cycle_iter ≤ s.cut_point from h)]

theorem oneCycleCalcLr_params (s : OneCycleLR) :
    (oneCycleCalcLr s).2.init_lr = s.init_lr ∧ (oneCycleCalcLr s).2.div = s.div ∧
    (oneCycleCalcLr s).2.total_iter = s.total_iter ∧ (oneCycleCalcLr s).2.cut_point = s.cut_point ∧
    (oneCycleCalcLr s).2.momentum_range = s.momentum_range := by
  simp only [oneCycleCalcLr]
  split <;> exact ⟨rfl, rfl, rfl, rfl, rfl⟩

theorem oneCycleCalcLr_cycle_iter (s : OneCycleLR) :
    (oneCycleCalcLr s).2.cycle_iter =
      if s.cycle_iter + 1 = s.total_iter then 0 else s.cycle_iter + 1 := by
  simp only [oneCycleCalcLr]
  split <;> rfl

theorem oneCycleIter_params (s : OneCycleLR) (k : ℕ) :
    (oneCycleIter s k).init_lr = s.init_lr ∧ (oneCycleIter s k).div = s.div ∧
    (oneCycleIter s k).total_iter = s.total_iter ∧ (oneCycleIter s k).cut_point = s.cut_point ∧
    (oneCycleIter s k).momentum_range = s.momentum_range := by
  induction k with
  | zero => exact ⟨rfl, rfl, rfl, rfl, rfl⟩
  | succ k ih =>
      have h := oneCycleCalcLr_params (oneCycleIter s k)
      unfold oneCycleIter
      exact ⟨h.1.trans ih.1, h.2.1.trans ih.2.1, h.2.2.1.trans ih.2.2.1,
        h.2.2.2.1.trans ih.2.2.2.1, h.2.2.2.2.trans ih.2.2.2.2⟩

/-- The counter after `k` calls is `k % total_iter` (also with
`total_iter = 0`, where the counter never wraps and `k % 0 = k`). -/
theorem oneCycleIter_cycle_iter (s : OneCycleLR) (h0 : s.cycle_iter = 0) (k : ℕ) :
    (oneCycleIter s k).cycle_iter = k % s.total_iter := by
  induction k with
  | zero =>
      rcases Nat.eq_zero_or_pos s.total_iter with h | h
      · simpa [oneCycleIter, h] using h0
      · simpa [oneCycleIter, Nat.mod_eq_of_lt h] using h0
  | succ k ih =>
      have hT := (oneCycleIter_params s k).2.2.1
      unfold oneCycleIter
      rw [oneCycleCalcLr_cycle_iter, ih, hT]
      have key : (k + 1) % s.total_iter = (k % s.total_iter + 1) % s.total_iter := by
        conv_lhs => rw [← Nat.mod_add_div k s.total_iter]
        rw [Nat.add_right_comm, Nat.add_mul_mod_self_left]
      rcases Nat.eq_zero_or_pos s.total_iter with h | h
      · simp [h]
      · have hlt : k % s.total_iter < s.total_iter := Nat.mod_lt _ h
        by_cases he : k % s.total_iter + 1 = s.total_iter
        · rw [if_pos he, key, he, Nat.mod_self]
        · have hlt2 : k % s.total_iter + 1 < s.total_iter := by omega
          rw [if_neg he, key, Nat.mod_eq_of_lt hlt2]

/-- The percent of the learning-rate computation as the specification
states it. -/
def oneCycleLrPercent (total cut i : ℕ) : ℚ :=
  if i ≤ cut then (i : ℚ) / (cut : ℚ)
  else 1 - ((i : ℚ) - (cut : ℚ)) / ((total : ℚ) - (cut : ℚ))

theorem oneCycleCalcMomentum_eq (s : OneCycleLR) :
    oneCycleCalcMomentum s = s.momentum_range.2 +
      oneCycleMomFormula s.total_iter s.cut_point s.cycle_iter *
        (s.momentum_range.1 - s.momentum_range.2) := rfl

/-- C1: For every One-Cycle schedule, the value returned by the k-th
`calc_lr` call, with iteration index `i = k % total_iter` (0-indexed),
equals `init_lr * (1 + percent*(div-1)) / div` with
`percent = i / cut_point` for `i ≤ cut_point` and
`percent = 1 - (i - cut_point)/(total_iter - cut_point)` otherwise,
where `total_iter = len(loader) * cycle_len` and
`cut_point = total_iter // cut_div` are fixed at the first training
loader-start; in particular for `div = 10`, `total_iter = 100`,
`cut_point = 25` and positive `init_lr`: the lr at `i = 0` is
`init_lr/10`, at `i = 25` it is `init_lr`, and at `i = 99` it lies
strictly between `init_lr/10` and `init_lr`. -/
theorem oneCycle_lr_schedule_correct (s : OneCycleLR) (loader_len : ℕ)
    (h0 : s.cycle_iter = 0)
    (hT : s.total_iter = loader_len * s.cycle_len)
    (hC : s.cut_point = s.total_iter / s.cut_div)
    (hcpos : 0 < s.cut_point) (hctot : s.cut_point < s.total_iter) :
    (∀ s0 : OneCycleLR,
      (oneCycleOnLoaderStart loader_len true s0).total_iter = loader_len * s0.cycle_len
      ∧ (oneCycleOnLoaderStart loader_len true s0).cut_point
          = loader_len * s0.cycle_len / s0.cut_div)
    ∧ (∀ k : ℕ, oneCycleNthLr s k
        = oneCycleLrFormula s.init_lr s.div s.total_iter s.cut_point (k % s.total_iter))
    ∧ (s.div = 10 → s.total_iter = 100 → s.cut_point = 25 → 0 < s.init_lr →
        oneCycleNthLr s 0 = s.init_lr / 10 ∧ oneCycleNthLr s 25 = s.init_lr
        ∧ s.init_lr / 10 < oneCycleNthLr s 99 ∧ oneCycleNthLr s 99 < s.init_lr) := by
  have hform : ∀ k : ℕ, oneCycleNthLr s k
      = oneCycleLrFormula s.init_lr s.div s.total_iter s.cut_point (k % s.total_iter) := by
    intro k
    have hp := oneCycleIter_params s k
    have hcy := oneCycleIter_cycle_iter s h0 k
    unfold oneCycleNthLr
    rw [oneCycleCalcLr_fst, hp.1, hp.2.1, hp.2.2.1, hp.2.2.2.1, hcy]
  refine ⟨fun s0 => ?_, hform, fun hdiv h100 h25 hpos => ?_⟩
  · exact ⟨by simp [oneCycleOnLoaderStart], by simp [oneCycleOnLoaderStart]⟩
  · have e0 := hform 0
    have e25 := hform 25
    have e99 := hform 99
    rw [hdiv, h100, h25] at e0 e25 e99
    norm_num [oneCycleLrFormula] at e0 e25 e99
    refine ⟨by linarith [e0], by linarith [e25], ?_, ?_⟩
    · rw [e99]; nlinarith [hpos]
    · rw [e99]; nlinarith [hpos]

/-- Witness for C1 at `loader_len = 25`, `cycle_len = 4`, `div = 10`,
`cut_div = 4`, `init_lr = 1`: the 25-th `calc_lr` call returns `init_lr`. -/
theorem oneCycle_lr_schedule_correct_witness :
    (0 : ℚ) < 1 ∧
    oneCycleNthLr (oneCycleOnLoaderStart 25 true (mkOneCycleLR 1 4 10 4 (19/20, 17/20))) 25 = 1 := by
  have h := oneCycle_lr_schedule_correct
    (oneCycleOnLoaderStart 25 true (mkOneCycleLR 1 4 10 4 (19/20, 17/20))) 25
    rfl rfl rfl (by decide) (by decide)
  have h2 := h.2.2 rfl rfl rfl (by decide)
  exact ⟨by norm_num, h2.2.1⟩

/-- C7 counterexample: at the very first training update of a One-Cycle
schedule with `total_iter = 100`, `cut_point = 25`,
`momentum_range = (0.95, 0.85)` and `init_lr = 1`, `div = 10`, the
learning rate is the `i = 0` value `init_lr/10`, but the momentum of the
same update is `0.946`, not `momentum_range[0] = 0.95`: `calc_momentum`
reads the counter value `1` already advanced by `calc_lr`, so it does
not use the same iteration index as the learning-rate computation. -/
theorem oneCycle_momentum_counterexample :
    (oneCycleUpdate ⟨1, 4, 10, 4, (19/20, 17/20), 100, 25, 0, 0⟩).1.1 = 1 / 10
    ∧ (oneCycleUpdate ⟨1, 4, 10, 4, (19/20, 17/20), 100, 25, 0, 0⟩).1.2 = 473 / 500
    ∧ (473 : ℚ) / 500 ≠ 19 / 20 := by
  refine ⟨?_, ?_, by norm_num⟩ <;> norm_num [oneCycleUpdate, oneCycleCalcLr, oneCycleCalcMomentum]

/-- C7 (amended): on each One-Cycle training update the momentum equals
`momentum_range[1] + percent * (momentum_range[0] - momentum_range[1])`
where `percent` is the complementary percent (`1 -` the learning-rate
percent) evaluated at the iteration index `(i+1) % total_iter`, one
step after the index `i` used by the learning-rate computation of that
same update (because `calc_lr` advances the counter before
`calc_momentum` reads it). -/
theorem oneCycle_momentum_amended (s : OneCycleLR) (hi : s.cycle_iter < s.total_iter) :
    (oneCycleUpdate s).1.2
      = s.momentum_range.2 + oneCycleMomFormula s.total_iter s.cut_point
          ((s.cycle_iter + 1) % s.total_iter) * (s.momentum_range.1 - s.momentum_range.2)
    ∧ (∀ j : ℕ, oneCycleMomFormula s.total_iter s.cut_point j
        = 1 - oneCycleLrPercent s.total_iter s.cut_point j)
    ∧ (oneCycleUpdate s).1.1
        = oneCycleLrFormula s.init_lr s.div s.total_iter s.cut_point s.cycle_iter := by
  refine ⟨?_, ?_, oneCycleCalcLr_fst s⟩
  · have hp := oneCycleCalcLr_params s
    have hcy := oneCycleCalcLr_cycle_iter s
    show oneCycleCalcMomentum (oneCycleCalcLr s).2 = _
    rw [oneCycleCalcMomentum_eq, hp.2.2.1, hp.2.2.2.1, hp.2.2.2.2, hcy]
    by_cases he : s.cycle_iter + 1 = s.total_iter
    · rw [if_pos he, he, Nat.mod_self]
    · rw [if_neg he, Nat.mod_eq_of_lt (by omega)]
  · intro j
    unfold oneCycleMomFormula oneCycleLrPercent
    by_cases hj : j ≤ s.cut_point
    · rw [if_neg (not_lt.mpr hj), if_pos hj]
    · rw [if_pos (not_le.mp hj), if_neg hj]
      ring

/-- Witness for the amended C7: at the first update (`i = 0`,
`total_iter = 100`) the momentum is the complementary interpolation at
index `1`, not at index `0`. -/
theorem oneCycle_momentum_amended_witness :
    (0 : ℕ) < 100 ∧
    (oneCycleUpdate ⟨1, 4, 10, 4, (19/20, 17/20), 100, 25, 0, 0⟩).1.2
      = (17/20 : ℚ) + oneCycleMomFormula 100 25 1 * (19/20 - 17/20) :=
  ⟨by decide, (oneCycle_momentum_amended ⟨1, 4, 10, 4, (19/20, 17/20), 100, 25, 0, 0⟩ (by decide)).1⟩

/-! ## LRFinder (src/dl/callbacks.py, lines 637-692) -/

structure LRFinder where
  init_lr : ℝ
  final_lr : ℝ
  n_steps : Option ℕ
  multiplier : ℝ
  find_iter : ℕ

/-- `LRFinder.__init__` (lines 645-666): `multiplier = 0`, `find_iter = 0`. -/
def mkLRFinder (init_lr final_lr : ℝ) (n_steps : Option ℕ) : LRFinder :=
  ⟨init_lr, final_lr, n_steps, 0, 0⟩

/-- `LRFinder.calc_lr` (lines 668-671): return
`init_lr * multiplier ** find_iter`, then increment the call counter. -/
noncomputable def lrFinderCalcLr (s : LRFinder) : ℝ × LRFinder :=
  (s.init_lr * s.multiplier ^ s.find_iter, { s with find_iter := s.find_iter + 1 })

/-- Python truthiness of `self.n_steps or len(state.loader)` (line 687):
`None` and `0` both fall back to the loader length. -/
def orTruthy (n : Option ℕ) (d : ℕ) : ℕ :=
  match n with
  | none => d
  | some 0 => d
  | some (m + 1) => m + 1

/-- `LRFinder.on_loader_start` (lines 682-692): on a training loader fix
`n_steps` and the geometric multiplier
`(final_lr / init_lr) ** (1 / n_steps)` (a real power), then the
base-class hook performs one `calc_lr` through `update_optimizer`.
Returns the new state and the lr the call produced (`none` when not
training). -/
noncomputable def lrFinderOnLoaderStart (loader_len : ℕ) (is_train : Bool) (s : LRFinder) :
    LRFinder × Option ℝ :=
  if is_train then
    let n := orTruthy s.n_steps loader_len
    let s1 : LRFinder :=
      { s with
        n_steps := some n
        multiplier := (s.final_lr / s.init_lr) ^ ((1 : ℝ) / (n : ℝ)) }
    let p := lrFinderCalcLr s1
    (p.2, some p.1)
  else (s, none)

/-- `LRFinder.on_batch_end` (lines 673-680): the base-class update
performs one `calc_lr` when training, and afterwards the exhaustion
check `find_iter > n_steps` raises `NotImplementedError("End of
LRFinder")`.  The last component records whether the exhaustion signal
was raised (after a training loader-start `n_steps` is always set;
`getD 0` stands for the unset value). -/
noncomputable def lrFinderOnBatchEnd (is_train : Bool) (s : LRFinder) :
    LRFinder × Option ℝ × Bool :=
  let p : LRFinder × Option ℝ :=
    if is_train then
      let q := lrFinderCalcLr s
      (q.2, some q.1)
    else (s, none)
  (p.1, p.2, decide (p.1.n_steps.getD 0 < p.1.find_iter))

/-- State after `j` further training batch-ends. -/
noncomputable def lrFinderRun (s : LRFinder) : ℕ → LRFinder
  | 0 => s
  | j + 1 => (lrFinderOnBatchEnd true (lrFinderRun s j)).1

theorem lrFinderRun_start_state (init final : ℝ) (ns : Option ℕ) (loader_len j : ℕ) :
    lrFinderRun (lrFinderOnLoaderStart loader_len true (mkLRFinder init final ns)).1 j
      = ⟨init, final, some (orTruthy ns loader_len),
         (final / init) ^ ((1 : ℝ) / (orTruthy ns loader_len : ℕ)), j + 1⟩ := by
  induction j with
  | zero => rfl
  | succ j ih =>
      show (lrFinderOnBatchEnd true _).1 = _
      rw [ih]
      rfl

/-- C4 (amended): successive `calc_lr` calls of the LR Range Finder
return the geometric sequence `init_lr * m^k`,
`m = (final_lr/init_lr) ** (1/n_steps)`, for the internal counter
`k = 0, 1, 2, ...` (the loader-start performs the `k = 0` call, the
`j`-th batch-end the `k = j` call); the exhaustion signal of a
batch-end is raised exactly when the counter, already advanced by that
batch-end's own call, exceeds `n_steps` — so for `n_steps = 10` it
fires at the 10th batch-end, immediately after the 11th call (`k = 10`)
has produced a value, and no 12th call ever occurs. -/
theorem lrFinder_schedule_amended (init final : ℝ) (ns : Option ℕ) (loader_len : ℕ) :
    (lrFinderOnLoaderStart loader_len true (mkLRFinder init final ns)).2
      = some (init * ((final / init) ^ ((1 : ℝ) / (orTruthy ns loader_len : ℕ))) ^ (0 : ℕ))
    ∧ ∀ j : ℕ,
      (lrFinderOnBatchEnd true (lrFinderRun
          (lrFinderOnLoaderStart loader_len true (mkLRFinder init final ns)).1 j)).2.1
        = some (init * ((final / init) ^ ((1 : ℝ) / (orTruthy ns loader_len : ℕ))) ^ (j + 1))
      ∧ (lrFinderOnBatchEnd true (lrFinderRun
          (lrFinderOnLoaderStart loader_len true (mkLRFinder init final ns)).1 j)).2.2
        = decide (orTruthy ns loader_len < j + 2) := by
  refine ⟨rfl, fun j => ?_⟩
  rw [lrFinderRun_start_state]
  exact ⟨rfl, rfl⟩

/-- C4 counterexample: with `init_lr = 1e-5`, `final_lr = 1`,
`n_steps = 10`, after the training loader-start (the 1st `calc_lr`
call) and 9 batch-ends (calls 2..10) no exhaustion has been signalled
and the counter is 10; the 10th batch-end performs the 11th call
(`k = 10`), which still produces a computed value, and then raises the
exhaustion signal with the counter at 11 — so the signal fires after
the 11th call has produced a value, and no 12th call occurs (the claim
places the signal at a 12th call in place of a value). -/
theorem lrFinder_exhaustion_counterexample :
    (lrFinderOnBatchEnd true (lrFinderRun
        (lrFinderOnLoaderStart 100 true (mkLRFinder (1/100000) 1 (some 10))).1 8)).2.2 = false
    ∧ (lrFinderRun
        (lrFinderOnLoaderStart 100 true (mkLRFinder (1/100000) 1 (some 10))).1 9).find_iter = 10
    ∧ (lrFinderOnBatchEnd true (lrFinderRun
        (lrFinderOnLoaderStart 100 true (mkLRFinder (1/100000) 1 (some 10))).1 9)).2.1.isSome = true
    ∧ (lrFinderOnBatchEnd true (lrFinderRun
        (lrFinderOnLoaderStart 100 true (mkLRFinder (1/100000) 1 (some 10))).1 9)).2.2 = true
    ∧ (lrFinderOnBatchEnd true (lrFinderRun
        (lrFinderOnLoaderStart 100 true (mkLRFinder (1/100000) 1 (some 10))).1 9)).1.find_iter = 11 := by
  rw [lrFinderRun_start_state, lrFinderRun_start_state]
  exact ⟨rfl, rfl, rfl, rfl, rfl⟩

/-! ## CheckpointCallback: best-N retention (src/dl/callbacks.py, lines 251-324) -/

/-- The comparison used by `save_checkpoint`'s
`sorted(..., key=lambda x: x[1], reverse=not minimize)`: with
`minimize` the list is ascending in the metric, otherwise descending,
so index 0 is always the current best. -/
def cmpKeep (minimize : Bool) (a b : ℚ) : Bool :=
  if minimize then decide (a ≤ b) else decide (b ≤ a)

/-- Stable insertion of an entry into a key-sorted list (a new entry
goes after existing entries with equal keys, like Python's stable sort). -/
def insEnt (r : ℚ → ℚ → Bool) (x : String × ℚ) : List (String × ℚ) → List (String × ℚ)
  | [] => [x]
  | y :: ys => if r y.2 x.2 = true then y :: insEnt r x ys else x :: y :: ys

/-- Stable sort by the metric component, modelling Python's `sorted`. -/
def sortEnts (r : ℚ → ℚ → Bool) (l : List (String × ℚ)) : List (String × ℚ) :=
  l.foldl (fun acc x => insEnt r x acc) []

theorem cmpKeep_total (m : Bool) (a b : ℚ) : cmpKeep m a b = true ∨ cmpKeep m b a = true := by
  cases m <;> simp [cmpKeep] <;> exact le_total _ _

theorem cmpKeep_trans (m : Bool) (a b c : ℚ) :
    cmpKeep m a b = true → cmpKeep m b c = true → cmpKeep m a c = true := by
  cases m with
  | false =>
      intro h1 h2
      have h1b : b ≤ a := of_decide_eq_true h1
      have h2b : c ≤ b := of_decide_eq_true h2
      exact decide_eq_true (le_trans h2b h1b)
  | true =>
      intro h1 h2
      have h1b : a ≤ b := of_decide_eq_true h1
      have h2b : b ≤ c := of_decide_eq_true h2
      exact decide_eq_true (le_trans h1b h2b)

theorem insEnt_perm (r : ℚ → ℚ → Bool) (x : String × ℚ) (l : List (String × ℚ)) :
    (insEnt r x l).Perm (x :: l) := by
  induction l with
  | nil => exact List.Perm.refl _
  | cons y ys ih =>
      unfold insEnt
      by_cases hc : r y.2 x.2 = true
      · rw [if_pos hc]
        exact (ih.cons y).trans (List.Perm.swap x y ys)
      · rw [if_neg hc]

theorem mem_insEnt (r : ℚ → ℚ → Bool) (x z : String × ℚ) (l : List (String × ℚ)) :
    z ∈ insEnt r x l ↔ z = x ∨ z ∈ l := by
  rw [(insEnt_perm r x l).mem_iff, List.mem_cons]

theorem insEnt_pairwise (r : ℚ → ℚ → Bool)
    (htot : ∀ a b, r a b = true ∨ r b a = true)
    (htr : ∀ a b c, r a b = true → r b c = true → r a c = true)
    (x : String × ℚ) (l : List (String × ℚ))
    (h : l.Pairwise (fun p q => r p.2 q.2 = true)) :
    (insEnt r x l).Pairwise (fun p q => r p.2 q.2 = true) := by
  induction l with
  | nil => simp [insEnt]
  | cons y ys ih =>
      rcases List.pairwise_cons.mp h with ⟨hy, hys⟩
      unfold insEnt
      by_cases hc : r y.2 x.2 = true
      · rw [if_pos hc]
        refine List.pairwise_cons.mpr ⟨?_, ih hys⟩
        intro z hz
        rcases (mem_insEnt r x z ys).mp hz with rfl | hzys
        · exact hc
        · exact hy z hzys
      · rw [if_neg hc]
        have h1 : r x.2 y.2 = true := by
          rcases htot x.2 y.2 with h1 | h1
          · exact h1
          · exact absurd h1 hc
        refine List.pairwise_cons.mpr ⟨?_, h⟩
        intro z hz
        rcases List.mem_cons.mp hz with rfl | hzys
        · exact h1
        · exact htr _ _ _ h1 (hy z hzys)

theorem sortFold_pairwise (r : ℚ → ℚ → Bool)
    (htot : ∀ a b, r a b = true ∨ r b a = true)
    (htr : ∀ a b c, r a b = true → r b c = true → r a c = true)
    (l acc : List (String × ℚ))
    (hacc : acc.Pairwise (fun p q => r p.2 q.2 = true)) :
    (l.foldl (fun a x => insEnt r x a) acc).Pairwise (fun p q => r p.2 q.2 = true) := by
  induction l generalizing acc with
  | nil => simpa using hacc
  | cons x t ih => exact ih _ (insEnt_pairwise r htot htr x acc hacc)

theorem sortFold_perm (r : ℚ → ℚ → Bool) (l acc : List (String × ℚ)) :
    (l.foldl (fun a x => insEnt r x a) acc).Perm (acc ++ l) := by
  induction l generalizing acc with
  | nil => simp
  | cons x t ih =>
      refine ((ih (insEnt r x acc)).trans ?_)
      refine (((insEnt_perm r x acc).append_right t).trans ?_)
      exact List.perm_middle.symm

theorem sortEnts_pairwise (r : ℚ → ℚ → Bool)
    (htot : ∀ a b, r a b = true ∨ r b a = true)
    (htr : ∀ a b c, r a b = true → r b c = true → r a c = true)
    (l : List (String × ℚ)) :
    (sortEnts r l).Pairwise (fun p q => r p.2 q.2 = true) :=
  sortFold_pairwise r htot htr l [] (List.Pairwise.nil)

theorem sortEnts_perm (r : ℚ → ℚ → Bool) (l : List (String × ℚ)) :
    (sortEnts r l).Perm l := by
  simpa using sortFold_perm r l []

theorem pairwise_last_worst {α : Type} {R : α → α → Prop} (l : List α)
    (h : l.Pairwise R) (hne : l ≠ []) :
    ∀ x ∈ l.dropLast, R x (l.getLast hne) := by
  intro x hx
  have hsplit := List.dropLast_append_getLast hne
  rw [← hsplit] at h
  exact (List.pairwise_append.mp h).2.2 x hx _ (List.mem_singleton_self _)

/-- Modelled from the spec: the external writer `save_checkpoint` from
`common.utils.helpers` writes "one file per save event suffixed by
epoch number" and returns the path (lines 312-315 pass
`suffix=str(checkpoint.get("epoch", ""))`). -/
def saveCkptFilename (epoch : ℕ) : String := "checkpoint." ++ toString epoch ++ ".pth.tar"

/-- `CheckpointCallback.save_checkpoint` (lines 311-324): write the new
checkpoint file, append `(filepath, valid_metrics[main_metric])` to
`top_best_metrics`, re-sort by metric (ascending iff `minimize`), and
when the list exceeds `save_n_best`, pop the tail entry and delete its
file (`os.remove`).  Returns the new list, the new file set, and the
deleted path, if any. -/
def saveCheckpointStep (minimize : Bool) (save_n_best : ℕ) (epoch : ℕ) (metric : ℚ)
    (top : List (String × ℚ)) (files : List String) :
    List (String × ℚ) × List String × Option String :=
  let filepath := saveCkptFilename epoch
  let files1 := files ++ [filepath]
  let l := sortEnts (cmpKeep minimize) (top ++ [(filepath, metric)])
  if save_n_best < l.length then
    match l.getLast? with
    | some last => (l.dropLast, files1.erase last.1, some last.1)
    | none => (l, files1, none)
  else (l, files1, none)

/-- C2: after each `save_checkpoint` call the retained-checkpoint list
is sorted by comparison metric (ascending when `minimize`, descending
otherwise, so index 0 is the current best), its length never exceeds
`save_n_best`, and whenever the insertion exceeds the bound exactly the
tail (worst) entry is removed and its file deleted. -/
theorem checkpoint_retention_invariant (minimize : Bool) (n epoch : ℕ) (metric : ℚ)
    (top : List (String × ℚ)) (files : List String)
    (hsorted : top.Pairwise (fun p q => cmpKeep minimize p.2 q.2 = true))
    (hlen : top.length ≤ n) :
    ((saveCheckpointStep minimize n epoch metric top files).1.Pairwise
        (fun p q => cmpKeep minimize p.2 q.2 = true))
    ∧ (saveCheckpointStep minimize n epoch metric top files).1.length ≤ n
    ∧ (top.length < n →
        (saveCheckpointStep minimize n epoch metric top files).1
          = sortEnts (cmpKeep minimize) (top ++ [(saveCkptFilename epoch, metric)])
        ∧ (saveCheckpointStep minimize n epoch metric top files).2.2 = none)
    ∧ (top.length = n → ∃ last,
        (sortEnts (cmpKeep minimize) (top ++ [(saveCkptFilename epoch, metric)])).getLast?
            = some last
        ∧ (saveCheckpointStep minimize n epoch metric top files).1
            = (sortEnts (cmpKeep minimize) (top ++ [(saveCkptFilename epoch, metric)])).dropLast
        ∧ (saveCheckpointStep minimize n epoch metric top files).2.2 = some last.1
        ∧ (saveCheckpointStep minimize n epoch metric top files).2.1
            = (files ++ [saveCkptFilename epoch]).erase last.1
        ∧ ∀ x ∈ (saveCheckpointStep minimize n epoch metric top files).1,
            cmpKeep minimize x.2 last.2 = true) := by
  have hlsort := sortEnts_pairwise (cmpKeep minimize) (cmpKeep_total minimize)
    (cmpKeep_trans minimize) (top ++ [(saveCkptFilename epoch, metric)])
  have hllen : (sortEnts (cmpKeep minimize) (top ++ [(saveCkptFilename epoch, metric)])).length
      = top.length + 1 := by
    rw [(sortEnts_perm _ _).length_eq, List.length_append, List.length_singleton]
  have hlne : sortEnts (cmpKeep minimize) (top ++ [(saveCkptFilename epoch, metric)]) ≠ [] := by
    intro h
    rw [h] at hllen
    simp at hllen
  have hlast := List.getLast?_eq_getLast _ hlne
  by_cases hover : n < (sortEnts (cmpKeep minimize) (top ++ [(saveCkptFilename epoch, metric)])).length
  · have hres : saveCheckpointStep minimize n epoch metric top files
        = ((sortEnts (cmpKeep minimize) (top ++ [(saveCkptFilename epoch, metric)])).dropLast,
           (files ++ [saveCkptFilename epoch]).erase
             ((sortEnts (cmpKeep minimize) (top ++ [(saveCkptFilename epoch, metric)])).getLast hlne).1,
           some ((sortEnts (cmpKeep minimize)
             (top ++ [(saveCkptFilename epoch, metric)])).getLast hlne).1) := by
      unfold saveCheckpointStep
      rw [if_pos hover, hlast]
    have htopn : top.length = n := by omega
    refine ⟨?_, ?_, ?_, ?_⟩
    · rw [hres]
      exact List.Pairwise.sublist (List.dropLast_sublist _) hlsort
    · rw [hres]
      simp only [List.length_dropLast]
      omega
    · intro hc
      omega
    · intro _
      refine ⟨_, hlast, ?_, ?_, ?_, ?_⟩
      · rw [hres]
      · rw [hres]
      · rw [hres]
      · intro x hx
        rw [hres] at hx
        exact pairwise_last_worst _ hlsort hlne x hx
  · have hres : saveCheckpointStep minimize n epoch metric top files
        = (sortEnts (cmpKeep minimize) (top ++ [(saveCkptFilename epoch, metric)]),
           files ++ [saveCkptFilename epoch], none) := by
      unfold saveCheckpointStep
      rw [if_neg hover]
    refine ⟨?_, ?_, ?_, ?_⟩
    · rw [hres]
      exact hlsort
    · rw [hres]
      show (sortEnts (cmpKeep minimize) (top ++ [(saveCkptFilename epoch, metric)])).length ≤ n
      omega
    · intro _
      rw [hres]
      exact ⟨rfl, rfl⟩
    · intro hc
      omega

/-- Witness for C2: `minimize`, `save_n_best = 2`, two retained entries;
inserting a third with metric `3/2` keeps the list at two entries. -/
theorem checkpoint_retention_invariant_witness :
    ([("a", (1 : ℚ)), ("b", 2)].Pairwise (fun p q => cmpKeep true p.2 q.2 = true))
    ∧ (saveCheckpointStep true 2 3 (3/2) [("a", 1), ("b", 2)] ["a", "b"]).1.length ≤ 2 := by
  have h := checkpoint_retention_invariant true 2 3 (3/2) [("a", 1), ("b", 2)] ["a", "b"]
    (by decide) (by decide)
  exact ⟨by decide, h.2.1⟩

/-! ## CheckpointCallback: best-metric decision (lines 329-342) -/

/-- A metric snapshot: metric name to scalar (a Python dict of floats). -/
abbrev Metrics := String → ℚ

def listPre : List Char → List Char → Bool
  | [], _ => true
  | _ :: _, [] => false
  | a :: as, b :: bs => a == b && listPre as bs

/-- Python `s.startswith(pre)`. -/
def strStartsWith (s pre : String) : Bool := listPre pre.data s.data

/-- `CheckpointCallback.process_epoch_metrics` (lines 329-342): take the
last `epoch_metrics` entry whose key starts with `"valid"` (`none` when
no such entry exists - the Python code would then fail subscripting
`None`); `is_best` is `True` when no best exists yet, else
`minimize != (valid_metrics[main_metric] > best_metrics[main_metric])`;
the best snapshot is replaced exactly when `is_best`.  Returns
`(best_metrics, valid_metrics, is_best)`. -/
def processEpochMetrics (epoch_metrics : List (String × Metrics)) (best : Option Metrics)
    (main_metric : String) (minimize : Bool) :
    Option (Option Metrics × Metrics × Bool) :=
  match (epoch_metrics.filter (fun kv => strStartsWith kv.1 "valid")).getLast? with
  | none => none
  | some kv =>
    let is_best : Bool :=
      match best with
      | none => true
      | some b => Bool.xor minimize (decide (kv.2 main_metric > b main_metric))
    some (if is_best then some kv.2 else best, kv.2, is_best)

/-- C3 counterexample: with `minimize` unset (maximizing) and the new
validation main metric equal to the current best (so new ≥ best), the
code computes `is_best = False`, while the claim's `≥` rule requires
`True`: the code uses a strict `>` when maximizing. -/
theorem checkpoint_is_best_counterexample :
    ((1 : ℚ) ≥ 1)
    ∧ (processEpochMetrics [("valid", fun _ => (1 : ℚ))] (some (fun _ => (1 : ℚ)))
        "loss" false).map (fun r => r.2.2) = some false :=
  ⟨le_refl 1, rfl⟩

/-- C3 (amended): at a validation epoch-end (a `"valid"`-prefixed entry
exists), `is_best` is true unconditionally when no best snapshot exists
yet; otherwise, with `minimize` set it is true iff the new validation
main metric is ≤ the current best, and with `minimize` unset it is true
iff the new metric is strictly greater than the current best (a tie is
not best when maximizing); `best_metrics` becomes the new snapshot iff
`is_best`, and otherwise the previous snapshot is kept. -/
theorem checkpoint_is_best_amended (epoch_metrics : List (String × Metrics))
    (best : Option Metrics) (main_metric : String) (minimize : Bool)
    (k : String) (v : Metrics)
    (hv : (epoch_metrics.filter (fun kv => strStartsWith kv.1 "valid")).getLast? = some (k, v)) :
    ∃ r, processEpochMetrics epoch_metrics best main_metric minimize = some r
      ∧ r.2.1 = v
      ∧ r.2.2 = (match best with
          | none => true
          | some b => if minimize then decide (v main_metric ≤ b main_metric)
                      else decide (b main_metric < v main_metric))
      ∧ r.1 = (if r.2.2 = true then some v else best) := by
  unfold processEpochMetrics
  rw [hv]
  refine ⟨_, rfl, rfl, ?_, ?_⟩
  · cases best with
    | none => rfl
    | some b =>
        cases minimize with
        | false =>
            show Bool.xor false (decide (v main_metric > b main_metric))
              = decide (b main_metric < v main_metric)
            rw [Bool.false_xor]
        | true =>
            show Bool.xor true (decide (v main_metric > b main_metric))
              = decide (v main_metric ≤ b main_metric)
            rw [Bool.true_xor, ← decide_not]
            exact decide_eq_decide.mpr not_lt
  · cases best with
    | none => rfl
    | some b =>
        cases hd : decide (v main_metric > b main_metric) <;> cases minimize <;> simp_all

/-- Witness for the amended C3: `minimize` with a strictly smaller new
metric is best. -/
theorem checkpoint_is_best_amended_witness :
    (processEpochMetrics [("valid", fun _ => (2 : ℚ))] (some (fun _ => (3 : ℚ)))
        "loss" true).map (fun r => r.2.2) = some true := by
  obtain ⟨r, h1, _, h3, _⟩ := checkpoint_is_best_amended
    [("valid", fun _ => (2 : ℚ))] (some (fun _ => (3 : ℚ))) "loss" true
    "valid" (fun _ => (2 : ℚ)) rfl
  rw [h1, Option.map_some']
  exact congrArg some (h3.trans (by decide))

/-! ## CheckpointCallback: resume (lines 276-309, 344-364)

The checkpoint blob, the wrapped model and the collaborator
(de)serialization are modelled at the granularity the resume logic
manipulates them. -/

/-- A scheduler snapshot with two configuration fields, to distinguish a
wholesale object replacement from a per-field merge. -/
structure SchedSnapshot where
  field1 : ℚ
  field2 : ℚ
deriving DecidableEq

/-- An optimizer as the resume logic sees it: an opaque parameter-state
blob replaced by `load_state_dict`. -/
structure POptim where
  state_sd : ℕ
deriving DecidableEq

/-- A model object: a plain module, or a module wrapped in
`torch.nn.DataParallel` or in `Fp16Wrap` (whose wrapped module is its
`network` attribute). -/
inductive PyModel
  | plain (sd : ℕ)
  | dataParallel (module : PyModel)
  | fp16Wrap (network : PyModel)
deriving DecidableEq

/-- `load_state_dict` on a module: replaces the parameters of the whole
module tree. -/
def loadStateDict : PyModel → ℕ → PyModel
  | .plain _, sd => .plain sd
  | .dataParallel m, sd => .dataParallel (loadStateDict m sd)
  | .fp16Wrap m, sd => .fp16Wrap (loadStateDict m sd)

/-- The parameters held by a (possibly wrapped) model. -/
def paramsOf : PyModel → ℕ
  | .plain sd => sd
  | .dataParallel m => paramsOf m
  | .fp16Wrap m => paramsOf m

/-- The wrapper layers around the plain module, outermost first. -/
def wrapTags : PyModel → List String
  | .plain _ => []
  | .dataParallel m => "dp" :: wrapTags m
  | .fp16Wrap m => "fp16" :: wrapTags m

/-- Lines 287-295: unwrap one `DataParallel` layer, then load the state
dict into `model.network` when the result is an `Fp16Wrap`, else into
the model itself.  The Python rebinding `model = model.module` mutates
the shared module, so the wrapper object keeps referencing the loaded
module. -/
def modelLoadParams (m : PyModel) (sd : ℕ) : PyModel :=
  match m with
  | .dataParallel inner =>
      .dataParallel (match inner with
        | .fp16Wrap net => .fp16Wrap (loadStateDict net sd)
        | x => loadStateDict x sd)
  | .fp16Wrap net => .fp16Wrap (loadStateDict net sd)
  | x => loadStateDict x sd

/-- A checkpoint blob, keyed as the code reads it: `epoch`,
`best_metrics`, `model_state_dict`, one `optimizer_<key>_state_dict`
per optimizer key and one `scheduler_<key>` per scheduler key
(`prepare_checkpoint` of `common.utils.helpers` writes these keys;
modelled from the spec's checkpoint-blob interface). -/
structure Checkpoint where
  epoch : ℕ
  best_metrics : Option Metrics
  model_state_dict : ℕ
  optimizer_state_dicts : List (String × ℕ)
  scheduler_snapshots : List (String × SchedSnapshot)

/-- The run state restored on resume. -/
structure RunState where
  epoch : ℕ
  best_metrics : Option Metrics

/-- Lines 297-300: `optimizer[key].load_state_dict(checkpoint["optimizer_<key>_state_dict"])`
for every optimizer key; a missing key is a Python `KeyError`. -/
def loadOptStates (c : Checkpoint) : List (String × POptim) → Except String (List (String × POptim))
  | [] => .ok []
  | e :: t =>
    match lookupKey e.1 c.optimizer_state_dicts with
    | none => .error ("KeyError: optimizer_" ++ e.1 ++ "_state_dict")
    | some sd => (loadOptStates c t).map (fun l => (e.1, POptim.mk sd) :: l)

/-- Lines 302-304: `scheduler[key] = checkpoint["scheduler_<key>"]` -
each scheduler entry is replaced wholesale by the stored snapshot
object. -/
def loadSchedStates (c : Checkpoint) :
    List (String × SchedSnapshot) → Except String (List (String × SchedSnapshot))
  | [] => .ok []
  | e :: t =>
    match lookupKey e.1 c.scheduler_snapshots with
    | none => .error ("KeyError: scheduler_" ++ e.1)
    | some sn => (loadSchedStates c t).map (fun l => (e.1, sn) :: l)

/-- `CheckpointCallback.load_checkpoint` (lines 276-309): raise when the
file does not exist, else restore `state.epoch` and
`state.best_metrics`, load the model parameters (unwrapping wrappers
first), load each optimizer state by key and replace each scheduler
entry by key.  The file system is a map from filename to the
deserialized blob (the raw loader `load_checkpoint` of
`common.utils.helpers` is modelled from the spec's blob interface). -/
def checkpointLoad (fs : List (String × Checkpoint)) (filename : String)
    (st : RunState) (model : PyModel) (optimizer : List (String × POptim))
    (scheduler : List (String × SchedSnapshot)) :
    Except String (RunState × PyModel × List (String × POptim) × List (String × SchedSnapshot)) :=
  match lookupKey filename fs with
  | none => .error ("no checkpoint found at " ++ filename)
  | some c =>
    match loadOptStates c optimizer with
    | .error e => .error e
    | .ok opts1 =>
      match loadSchedStates c scheduler with
      | .error e => .error e
      | .ok scheds1 =>
        .ok (⟨c.epoch, c.best_metrics⟩, modelLoadParams model c.model_state_dict, opts1, scheds1)

/-- `CheckpointCallback.on_mode_start` (lines 344-364): when a resume
path is configured, run `load_checkpoint` on it; otherwise nothing
happens. -/
def checkpointOnModeStart (resume : Option String) (fs : List (String × Checkpoint))
    (st : RunState) (model : PyModel) (optimizer : List (String × POptim))
    (scheduler : List (String × SchedSnapshot)) :
    Except String (RunState × PyModel × List (String × POptim) × List (String × SchedSnapshot)) :=
  match resume with
  | none => .ok (st, model, optimizer, scheduler)
  | some path => checkpointLoad fs path st model optimizer scheduler

theorem paramsOf_loadStateDict (m : PyModel) (sd : ℕ) : paramsOf (loadStateDict m sd) = sd := by
  induction m with
  | plain _ => rfl
  | dataParallel _ ih => exact ih
  | fp16Wrap _ ih => exact ih

theorem wrapTags_loadStateDict (m : PyModel) (sd : ℕ) :
    wrapTags (loadStateDict m sd) = wrapTags m := by
  induction m with
  | plain _ => rfl
  | dataParallel _ ih => simpa [loadStateDict, wrapTags] using ih
  | fp16Wrap _ ih => simpa [loadStateDict, wrapTags] using ih

theorem paramsOf_modelLoadParams (m : PyModel) (sd : ℕ) :
    paramsOf (modelLoadParams m sd) = sd := by
  cases m with
  | plain _ => rfl
  | fp16Wrap net => exact paramsOf_loadStateDict net sd
  | dataParallel inner =>
      cases inner with
      | plain _ => rfl
      | fp16Wrap net => exact paramsOf_loadStateDict net sd
      | dataParallel m2 => exact paramsOf_loadStateDict (PyModel.dataParallel m2) sd

theorem wrapTags_modelLoadParams (m : PyModel) (sd : ℕ) :
    wrapTags (modelLoadParams m sd) = wrapTags m := by
  cases m with
  | plain _ => rfl
  | fp16Wrap net => simpa [modelLoadParams, wrapTags] using wrapTags_loadStateDict net sd
  | dataParallel inner =>
      cases inner with
      | plain _ => rfl
      | fp16Wrap net =>
          simpa [modelLoadParams, wrapTags] using wrapTags_loadStateDict net sd
      | dataParallel m2 =>
          simpa [modelLoadParams, wrapTags] using
            wrapTags_loadStateDict (PyModel.dataParallel m2) sd

theorem loadOptStates_ok (c : Checkpoint) (opts : List (String × POptim))
    (h : ∀ e ∈ opts, ∃ sd, lookupKey e.1 c.optimizer_state_dicts = some sd) :
    loadOptStates c opts
      = .ok (opts.map (fun e =>
          (e.1, POptim.mk ((lookupKey e.1 c.optimizer_state_dicts).getD 0)))) := by
  induction opts with
  | nil => rfl
  | cons e t ih =>
      obtain ⟨sd, hsd⟩ := h e (List.mem_cons_self e t)
      have ht := ih (fun x hx => h x (List.mem_cons_of_mem e hx))
      simp [loadOptStates, hsd, ht, Except.map]

theorem loadSchedStates_ok (c : Checkpoint) (scheds : List (String × SchedSnapshot))
    (h : ∀ e ∈ scheds, ∃ sn, lookupKey e.1 c.scheduler_snapshots = some sn) :
    loadSchedStates c scheds
      = .ok (scheds.map (fun e =>
          (e.1, (lookupKey e.1 c.scheduler_snapshots).getD ⟨0, 0⟩))) := by
  induction scheds with
  | nil => rfl
  | cons e t ih =>
      obtain ⟨sn, hsn⟩ := h e (List.mem_cons_self e t)
      have ht := ih (fun x hx => h x (List.mem_cons_of_mem e hx))
      simp [loadSchedStates, hsn, ht, Except.map]

/-- C8: when a resume path is configured, mode-start fails fatally if
the checkpoint file does not exist; on success it restores
`state.epoch` and `state.best_metrics` from the checkpoint, loads the
model parameters after first unwrapping any parallelism or
reduced-precision wrapper (the wrapper structure is preserved and the
underlying parameters become the stored ones), loads each optimizer's
state under its key, and replaces each scheduler entry under its key
with the stored snapshot object wholesale (full object replacement,
not a field merge). -/
theorem checkpoint_resume_correct (path : String) (fs : List (String × Checkpoint))
    (st : RunState) (model : PyModel) (optimizer : List (String × POptim))
    (scheduler : List (String × SchedSnapshot)) :
    (lookupKey path fs = none →
      checkpointOnModeStart (some path) fs st model optimizer scheduler
        = .error ("no checkpoint found at " ++ path))
    ∧ (∀ c, lookupKey path fs = some c →
        (∀ e ∈ optimizer, ∃ sd, lookupKey e.1 c.optimizer_state_dicts = some sd) →
        (∀ e ∈ scheduler, ∃ sn, lookupKey e.1 c.scheduler_snapshots = some sn) →
        checkpointOnModeStart (some path) fs st model optimizer scheduler
          = .ok (⟨c.epoch, c.best_metrics⟩, modelLoadParams model c.model_state_dict,
              optimizer.map (fun e =>
                (e.1, POptim.mk ((lookupKey e.1 c.optimizer_state_dicts).getD 0))),
              scheduler.map (fun e =>
                (e.1, (lookupKey e.1 c.scheduler_snapshots).getD ⟨0, 0⟩)))
        ∧ paramsOf (modelLoadParams model c.model_state_dict) = c.model_state_dict
        ∧ wrapTags (modelLoadParams model c.model_state_dict) = wrapTags model) := by
  constructor
  · intro h
    simp [checkpointOnModeStart, checkpointLoad, h]
  · intro c hc hopt hsched
    refine ⟨?_, paramsOf_modelLoadParams model c.model_state_dict,
      wrapTags_modelLoadParams model c.model_state_dict⟩
    simp [checkpointOnModeStart, checkpointLoad, hc,
      loadOptStates_ok c optimizer hopt, loadSchedStates_ok c scheduler hsched]

/-- Witness for C8: resuming from an existing file restores the epoch,
loads the parameters through a `DataParallel(Fp16Wrap(...))` wrapper
stack, loads the optimizer state under its key and replaces the
scheduler snapshot wholesale (both fields). -/
theorem checkpoint_resume_correct_witness :
    checkpointOnModeStart (some "ckpt")
        [("ckpt", ⟨7, none, 42, [("main", 5)], [("main", ⟨1, 2⟩)]⟩)]
        ⟨0, none⟩ (.dataParallel (.fp16Wrap (.plain 0))) [("main", ⟨9⟩)] [("main", ⟨3, 4⟩)]
      = .ok (⟨7, none⟩, .dataParallel (.fp16Wrap (.plain 42)),
          [("main", ⟨5⟩)], [("main", ⟨1, 2⟩)]) := by
  have h := (checkpoint_resume_correct "ckpt"
      [("ckpt", ⟨7, none, 42, [("main", 5)], [("main", ⟨1, 2⟩)]⟩)]
      ⟨0, none⟩ (.dataParallel (.fp16Wrap (.plain 0))) [("main", ⟨9⟩)] [("main", ⟨3, 4⟩)]).2
    ⟨7, none, 42, [("main", 5)], [("main", ⟨1, 2⟩)]⟩ rfl
    (by intro e he; rw [List.mem_singleton.mp he]; exact ⟨5, rfl⟩)
    (by intro e he; rw [List.mem_singleton.mp he]; exact ⟨⟨1, 2⟩, rfl⟩)
  exact h.1

/-! ## BasicOptimizerCallback (src/dl/callbacks.py, lines 411-497)

Parameters and gradients are scalars over `ℝ`; the optimizer's own
`step()` is an abstract per-group update `stepFn` (it reads the group's
configuration and rewrites its parameters, nothing else). -/

/-- A single parameter tensor: its value and its gradient. -/
structure Param where
  data : ℝ
  grad : ℝ

/-- A torch parameter group: learning rate, (optional) weight-decay
entry, and the parameters. -/
structure ParamGroup where
  lr : ℝ
  weight_decay : Option ℝ
  params : List Param

/-- A torch optimizer: its parameter groups. -/
structure Optim where
  param_groups : List ParamGroup

/-- The gradient 2-norm of a parameter list. -/
noncomputable def gradNorm (ps : List Param) : ℝ :=
  Real.sqrt ((ps.map (fun p => p.grad ^ 2)).sum)

/-- Modelled from the spec: the gradient-clipping collaborator
`torch.nn.utils.clip_grad_norm_` with the default 2-norm — "clip the
gradient norm of that optimizer's parameters to the configured max":
with `clip_coef = max_norm / (total_norm + 1e-6)`, every gradient is
scaled by `clip_coef` when `clip_coef < 1`. -/
noncomputable def clipGradNorm (max_norm : ℝ) (ps : List Param) : List Param :=
  let clip_coef := max_norm / (gradNorm ps + 1 / 1000000)
  if clip_coef < 1 then ps.map (fun p => { p with grad := p.grad * clip_coef }) else ps

/-- The per-optimizer pre-step transformation of
`BasicOptimizerCallback.grad_step` (lines 444-455): when the key has a
stashed weight decay, every parameter of every group is shrunk in-place
by `param.data.add(-wd * group["lr"], param.data)` and, if clipping is
configured, each group is clipped — note the clip is nested inside the
weight-decay branch; nothing happens for keys without stashed decay. -/
noncomputable def decayClipGroup (wd : ℝ) (grad_clip : Option ℝ) (g : ParamGroup) :
    ParamGroup :=
  let g1 : ParamGroup :=
    { g with params := g.params.map (fun p =>
        { p with data := p.data + -(wd * g.lr) * p.data }) }
  match grad_clip with
  | some c => { g1 with params := clipGradNorm c g1.params }
  | none => g1

noncomputable def gradStepPre (wds : List (String × ℝ)) (grad_clip : Option ℝ)
    (key : String) (o : Optim) : Optim :=
  match lookupKey key wds with
  | some wd => ⟨o.param_groups.map (decayClipGroup wd grad_clip)⟩
  | none => o

/-- `optimizer.step()` abstracted: the optimizer rewrites each group's
parameters as a function of that group (its configuration fields are
left untouched). -/
noncomputable def optimStep (stepFn : ParamGroup → List Param) (o : Optim) : Optim :=
  ⟨o.param_groups.map (fun g => { g with params := stepFn g })⟩

/-- `grad_step` (lines 444-455): for every optimizer, apply the
pre-step transformation (decay and clip, only under an active stash)
and then invoke the optimizer's own `step()`. -/
noncomputable def gradStep (wds : List (String × ℝ)) (grad_clip : Option ℝ)
    (stepFn : ParamGroup → List Param) (optimizer : List (String × Optim)) :
    List (String × Optim) :=
  optimizer.map (fun e => (e.1, optimStep stepFn (gradStepPre wds grad_clip e.1 e.2)))

/-- The stash decision of `on_epoch_start` (lines 434-442): read
`param_groups[0].get("weight_decay", 0.0)` and remember it when
positive (an optimizer without param groups would raise in Python and
is left untouched here). -/
noncomputable def stashWd (e : String × Optim) : Option (String × ℝ) :=
  match e.2.param_groups with
  | [] => none
  | g0 :: _ =>
      if 0 < g0.weight_decay.getD 0 then some (e.1, g0.weight_decay.getD 0) else none

/-- The mutation of `on_epoch_start`: zero `param_groups[0]["weight_decay"]`
when the stash condition held. -/
noncomputable def optZeroWd (o : Optim) : Optim :=
  match o.param_groups with
  | [] => o
  | g0 :: gs =>
      if 0 < g0.weight_decay.getD 0 then ⟨{ g0 with weight_decay := some 0 } :: gs⟩ else o

/-- `BasicOptimizerCallback.on_epoch_start` (lines 434-442): build the
fresh `optimizer_wds` stash and zero every stashed optimizer's first
weight-decay field. -/
noncomputable def optOnEpochStart (optimizer : List (String × Optim)) :
    List (String × ℝ) × List (String × Optim) :=
  (optimizer.filterMap stashWd, optimizer.map (fun e => (e.1, optZeroWd e.2)))

/-- The restore of `on_epoch_end` for one optimizer entry. -/
noncomputable def restoreWd (wds : List (String × ℝ)) (key : String) (o : Optim) : Optim :=
  match lookupKey key wds with
  | some w =>
      match o.param_groups with
      | [] => o
      | g0 :: gs => ⟨{ g0 with weight_decay := some w } :: gs⟩
  | none => o

/-- `BasicOptimizerCallback.on_epoch_end` (lines 493-497): write every
stashed decay value back into `param_groups[0]["weight_decay"]`. -/
noncomputable def optOnEpochEnd (wds : List (String × ℝ))
    (optimizer : List (String × Optim)) : List (String × Optim) :=
  optimizer.map (fun e => (e.1, restoreWd wds e.1 e.2))

/-- `model.zero_grad()` / `optimizer.zero_grad()` on a parameter list. -/
noncomputable def zeroGradParams (ps : List Param) : List Param :=
  ps.map (fun p => { p with grad := 0 })

/-- `loss.backward()` writing gradients into a parameter list (autograd
is a collaborator; the gradient values come from the `backward`
argument of the batch-end models below). -/
noncomputable def setGrads (ps : List Param) (gs : List ℝ) : List Param :=
  (ps.zip gs).map (fun q => { q.1 with grad := q.2 })

theorem gradNorm_scale (ps : List Param) (k : ℝ) :
    gradNorm (ps.map (fun p => { p with grad := p.grad * k })) = |k| * gradNorm ps := by
  unfold gradNorm
  rw [List.map_map]
  have h1 : ((fun p => p.grad ^ 2) ∘ (fun p => ({ p with grad := p.grad * k } : Param)))
      = fun p : Param => p.grad ^ 2 * k ^ 2 := by
    funext p
    show (p.grad * k) ^ 2 = p.grad ^ 2 * k ^ 2
    ring
  have hS : 0 ≤ (ps.map (fun p => p.grad ^ 2)).sum := by
    apply List.sum_nonneg
    intro x hx
    obtain ⟨p, _, rfl⟩ := List.mem_map.mp hx
    positivity
  rw [h1, List.sum_map_mul_right, Real.sqrt_mul hS, Real.sqrt_sq_eq_abs]
  ring

theorem clipGradNorm_norm_le (c : ℝ) (ps : List Param) (hc : 0 < c) :
    gradNorm (clipGradNorm c ps) ≤ c := by
  have ht : 0 ≤ gradNorm ps := Real.sqrt_nonneg _
  have heps : (0 : ℝ) < 1 / 1000000 := by norm_num
  have hden : (0 : ℝ) < gradNorm ps + 1 / 1000000 := by linarith
  unfold clipGradNorm
  by_cases h : c / (gradNorm ps + 1 / 1000000) < 1
  · rw [if_pos h, gradNorm_scale, abs_of_nonneg (le_of_lt (div_pos hc hden))]
    calc c / (gradNorm ps + 1 / 1000000) * gradNorm ps
        = c * (gradNorm ps / (gradNorm ps + 1 / 1000000)) := by ring
      _ ≤ c * 1 := by
          refine mul_le_mul_of_nonneg_left ?_ (le_of_lt hc)
          rw [div_le_one hden]
          linarith
      _ = c := mul_one c
  · rw [if_neg h]
    push_neg at h
    have h2 := (one_le_div hden).mp h
    linarith

theorem clipGradNorm_data (c : ℝ) (ps : List Param) :
    (clipGradNorm c ps).map (fun p => p.data) = ps.map (fun p => p.data) := by
  simp only [clipGradNorm]
  split
  · rw [List.map_map]
    rfl
  · rfl

theorem clipGradNorm_length (c : ℝ) (ps : List Param) :
    (clipGradNorm c ps).length = ps.length := by
  simp only [clipGradNorm]
  split
  · rw [List.length_map]
  · rfl

theorem stashWd_key (e : String × Optim) (b : String × ℝ) (h : stashWd e = some b) :
    b.1 = e.1 := by
  unfold stashWd at h
  cases hpg : e.2.param_groups with
  | nil =>
      simp only [hpg] at h
      exact Option.noConfusion h
  | cons g0 gs =>
      simp only [hpg] at h
      by_cases h0 : 0 < g0.weight_decay.getD 0
      · rw [if_pos h0] at h
        rw [← Option.some.inj h]
      · rw [if_neg h0] at h
        cases h

theorem lookupKey_stash (optimizer : List (String × Optim)) (k : String) (o : Optim)
    (g0 : ParamGroup) (gs : List ParamGroup) (w : ℝ)
    (hlk : lookupKey k optimizer = some o)
    (hg : o.param_groups = g0 :: gs) (hwd : g0.weight_decay = some w) (hw : 0 < w) :
    lookupKey k (optOnEpochStart optimizer).1 = some w := by
  induction optimizer with
  | nil => cases hlk
  | cons e t ih =>
      show lookupKey k (List.filterMap stashWd (e :: t)) = some w
      by_cases he : e.1 = k
      · rw [lookupKey_cons, if_pos he] at hlk
        have heo : e.2 = o := Option.some.inj hlk
        have hse : stashWd e = some (e.1, w) := by
          unfold stashWd
          simp only [heo, hg]
          rw [hwd]
          rw [show (some w).getD 0 = w from rfl, if_pos hw]
        simp only [List.filterMap_cons, hse]
        rw [lookupKey_cons, if_pos he]
      · rw [lookupKey_cons, if_neg he] at hlk
        have ht := ih hlk
        rw [List.filterMap_cons]
        cases hse : stashWd e with
        | none => exact ht
        | some b =>
            have hb := stashWd_key e b hse
            rw [lookupKey_cons, if_neg (by rw [hb]; exact he)]
            exact ht

theorem lookupKey_map_snd {α β : Type} (k : String) (f : α → β) (l : List (String × α)) :
    lookupKey k (l.map (fun e => (e.1, f e.2))) = Option.map f (lookupKey k l) := by
  induction l with
  | nil => rfl
  | cons e t ih =>
      by_cases h : e.1 = k
      · simp [lookupKey, h]
      · simp [lookupKey, h, ih]

theorem map_data_decay (w lr : ℝ) (ps : List Param) :
    (ps.map (fun p => ({ p with data := p.data + -(w * lr) * p.data } : Param))).map
        (fun p => p.data)
      = ps.map (fun p => p.data - w * lr * p.data) := by
  induction ps with
  | nil => rfl
  | cons p t ih =>
      simp only [List.map_cons]
      exact congrArg₂ List.cons
        (show p.data + -(w * lr) * p.data = p.data - w * lr * p.data by ring) ih

/-- The data of every parameter of every group handed to the step is the
decayed value (clipping touches only gradients). -/
theorem gradStepPre_data (wds : List (String × ℝ)) (grad_clip : Option ℝ) (k : String)
    (o : Optim) (w : ℝ) (hlk : lookupKey k wds = some w) :
    (gradStepPre wds grad_clip k o).param_groups.map (fun g => g.params.map (fun p => p.data))
      = o.param_groups.map (fun g => g.params.map (fun p => p.data - w * g.lr * p.data)) := by
  obtain ⟨l⟩ := o
  unfold gradStepPre
  simp only [hlk]
  show (l.map _).map _ = l.map _
  induction l with
  | nil => rfl
  | cons g t ih =>
      simp only [List.map_cons]
      refine congrArg₂ List.cons ?_ ih
      unfold decayClipGroup
      cases grad_clip with
      | none => exact map_data_decay w g.lr g.params
      | some c =>
          show (clipGradNorm c (g.params.map _)).map (fun p => p.data) = _
          rw [clipGradNorm_data]
          exact map_data_decay w g.lr g.params

/-- The pre-step transformation does not touch the groups' configuration
fields (in particular the zeroed weight-decay entry stays zero for the
step to see). -/
theorem gradStepPre_config (wds : List (String × ℝ)) (grad_clip : Option ℝ) (k : String)
    (o : Optim) (w : ℝ) (hlk : lookupKey k wds = some w) :
    (gradStepPre wds grad_clip k o).param_groups.map (fun g => (g.lr, g.weight_decay))
      = o.param_groups.map (fun g => (g.lr, g.weight_decay)) := by
  obtain ⟨l⟩ := o
  unfold gradStepPre
  simp only [hlk]
  show (l.map _).map _ = l.map _
  induction l with
  | nil => rfl
  | cons g t ih =>
      simp only [List.map_cons]
      refine congrArg₂ List.cons ?_ ih
      unfold decayClipGroup
      cases grad_clip with
      | none => rfl
      | some c => rfl

/-- C5: for every optimizer whose configured weight decay `w` is
positive at epoch-start, the stash records `w` and the optimizer's
weight-decay field is zeroed before any step of that epoch executes;
during the epoch every training batch-end's `grad_step` hands the
optimizer's own step a state in which `lr * w * param` has been
subtracted from every parameter in-place (before clipping, which
touches only gradients, and before the step) while configuration fields
stay untouched; and at epoch-end the original `w` is restored into the
optimizer's configuration. -/
theorem decoupled_weight_decay_correct (optimizer : List (String × Optim))
    (k : String) (o : Optim) (g0 : ParamGroup) (gs : List ParamGroup) (w : ℝ)
    (hlk : lookupKey k optimizer = some o)
    (hg : o.param_groups = g0 :: gs) (hwd : g0.weight_decay = some w) (hw : 0 < w) :
    lookupKey k (optOnEpochStart optimizer).1 = some w
    ∧ lookupKey k (optOnEpochStart optimizer).2
        = some ⟨{ g0 with weight_decay := some 0 } :: gs⟩
    ∧ (∀ wds2 grad_clip stepFn optimizer2,
        gradStep wds2 grad_clip stepFn optimizer2
          = optimizer2.map (fun e => (e.1, optimStep stepFn (gradStepPre wds2 grad_clip e.1 e.2))))
    ∧ (∀ wds2 grad_clip o2, lookupKey k wds2 = some w →
        (gradStepPre wds2 grad_clip k o2).param_groups.map
            (fun g => g.params.map (fun p => p.data))
          = o2.param_groups.map (fun g => g.params.map (fun p => p.data - w * g.lr * p.data))
        ∧ (gradStepPre wds2 grad_clip k o2).param_groups.map (fun g => (g.lr, g.weight_decay))
          = o2.param_groups.map (fun g => (g.lr, g.weight_decay)))
    ∧ (∀ optimizer2 o2 h t, lookupKey k optimizer2 = some o2 → o2.param_groups = h :: t →
        lookupKey k (optOnEpochEnd (optOnEpochStart optimizer).1 optimizer2)
          = some ⟨{ h with weight_decay := some w } :: t⟩) := by
  have ha1 := lookupKey_stash optimizer k o g0 gs w hlk hg hwd hw
  refine ⟨ha1, ?_, fun _ _ _ _ => rfl,
    fun wds2 grad_clip o2 hlk2 =>
      ⟨gradStepPre_data wds2 grad_clip k o2 w hlk2,
       gradStepPre_config wds2 grad_clip k o2 w hlk2⟩, ?_⟩
  · have hzero : optZeroWd o = ⟨{ g0 with weight_decay := some 0 } :: gs⟩ := by
      unfold optZeroWd
      simp only [hg]
      rw [hwd]
      rw [show (some w).getD 0 = w from rfl, if_pos hw]
    show lookupKey k (optimizer.map (fun e => (e.1, optZeroWd e.2))) = _
    rw [lookupKey_map_snd, hlk, Option.map_some', hzero]
  · intro optimizer2 o2 h t hlk2 hg2
    have hmap := lookupKey_entry_map k (restoreWd (optOnEpochStart optimizer).1) optimizer2
    show lookupKey k (optimizer2.map
        (fun e => (e.1, restoreWd (optOnEpochStart optimizer).1 e.1 e.2))) = _
    rw [hmap, hlk2, Option.map_some']
    have : restoreWd (optOnEpochStart optimizer).1 k o2
        = ⟨{ h with weight_decay := some w } :: t⟩ := by
      unfold restoreWd
      simp only [ha1, hg2]
    rw [this]

/-- Witness for C5 at `w = 0.1`, `lr = 0.01`: the stash records `0.1`,
the first weight-decay field becomes zero, and the data handed to the
step is `p - 0.1 * 0.01 * p` for the parameter `p = 2`. -/
theorem decoupled_weight_decay_correct_witness :
    lookupKey "main" (optOnEpochStart
        [("main", ⟨[⟨1/100, some (1/10), [⟨2, 5⟩]⟩]⟩)]).1 = some ((1 : ℝ)/10)
    ∧ lookupKey "main" (optOnEpochStart
        [("main", ⟨[⟨1/100, some (1/10), [⟨2, 5⟩]⟩]⟩)]).2
        = some ⟨[⟨1/100, some 0, [⟨2, 5⟩]⟩]⟩
    ∧ (gradStepPre [("main", (1 : ℝ)/10)] none "main"
          ⟨[⟨1/100, some 0, [⟨2, 5⟩]⟩]⟩).param_groups.map
        (fun g => g.params.map (fun p => p.data))
        = [[(2 : ℝ) - 1/10 * (1/100) * 2]] := by
  have h := decoupled_weight_decay_correct
    [("main", ⟨[⟨1/100, some (1/10), [⟨2, 5⟩]⟩]⟩)] "main"
    ⟨[⟨1/100, some (1/10), [⟨2, 5⟩]⟩]⟩ ⟨1/100, some (1/10), [⟨2, 5⟩]⟩ [] (1/10)
    rfl rfl rfl (by norm_num)
  refine ⟨h.1, h.2.1, ?_⟩
  exact (h.2.2.2.1 [("main", (1 : ℝ)/10)] none ⟨[⟨1/100, some 0, [⟨2, 5⟩]⟩]⟩ rfl).1

/-- C6 counterexample: gradient clipping is configured (`grad_clip = 1`)
but the optimizer has no active decoupled weight decay (its key is not
in the stash), and its gradient norm is `5 > 1`; `grad_step`
nevertheless hands the step the gradients unchanged — the clip call is
nested inside the weight-decay branch, so it is skipped. -/
theorem grad_clip_skipped_counterexample :
    gradStep [] (some 1) (fun g => g.params) [("main", ⟨[⟨1/100, some 0, [⟨2, 5⟩]⟩]⟩)]
      = [("main", ⟨[⟨1/100, some 0, [⟨2, 5⟩]⟩]⟩)]
    ∧ gradNorm [⟨2, 5⟩] = 5
    ∧ (1 : ℝ) < 5 := by
  refine ⟨rfl, ?_, by norm_num⟩
  show Real.sqrt (([⟨2, 5⟩] : List Param).map (fun p => p.grad ^ 2)).sum = 5
  rw [show (([⟨2, 5⟩] : List Param).map (fun p => p.grad ^ 2)).sum = (5 : ℝ) ^ 2 by
    simp [List.sum_cons]]
  exact Real.sqrt_sq (by norm_num)

/-- C6 (amended): at a standard-precision training batch-end, for each
optimizer whose key has an active decoupled weight decay and with
gradient clipping configured to a positive max, the gradient 2-norm of
every parameter group handed to that optimizer's step is at most the
configured max; for optimizers without active decay the clip does not
run at all (the clip call is nested inside the weight-decay branch of
`grad_step`). -/
theorem grad_clip_amended (wds : List (String × ℝ)) (c : ℝ) (k : String) (w : ℝ)
    (stepFn : ParamGroup → List Param)
    (hlk : lookupKey k wds = some w) (hc : 0 < c) :
    (∀ optimizer, gradStep wds (some c) stepFn optimizer
        = optimizer.map (fun e => (e.1, optimStep stepFn (gradStepPre wds (some c) e.1 e.2))))
    ∧ (∀ o g, g ∈ (gradStepPre wds (some c) k o).param_groups → gradNorm g.params ≤ c)
    ∧ (∀ o2 k2, lookupKey k2 wds = none → gradStepPre wds (some c) k2 o2 = o2) := by
  refine ⟨fun _ => rfl, fun o g hgmem => ?_, fun o2 k2 hnone => ?_⟩
  · unfold gradStepPre at hgmem
    simp only [hlk] at hgmem
    simp only [List.mem_map] at hgmem
    obtain ⟨g1, _, rfl⟩ := hgmem
    show gradNorm (decayClipGroup w (some c) g1).params ≤ c
    unfold decayClipGroup
    exact clipGradNorm_norm_le c _ hc
  · unfold gradStepPre
    simp only [hnone]

/-- Witness for the amended C6: with `max = 1` and a single parameter of
gradient `5` under an active decay, the group handed to the step has
gradient norm at most `1`. -/
theorem grad_clip_amended_witness :
    gradNorm (decayClipGroup ((1 : ℝ)/10) (some 1) ⟨1/100, some 0, [⟨2, 5⟩]⟩).params ≤ 1 := by
  have h := (grad_clip_amended [("main", (1 : ℝ)/10)] 1 "main" (1/10)
    (fun g => g.params) rfl (by norm_num)).2.1
    ⟨[⟨1/100, some 0, [⟨2, 5⟩]⟩]⟩
    (decayClipGroup ((1 : ℝ)/10) (some 1) ⟨1/100, some 0, [⟨2, 5⟩]⟩)
    (List.mem_singleton_self _)
  exact h

/-! ## Reduced-precision (fp16) batch-end (lines 457-491) -/

inductive PyErr
  | assertionError
  | keyError (key : String)
  | indexError
deriving DecidableEq

/-- Modelled from the spec: `copy_grads(source, target)` of
`common.utils.fp16` — copy/accumulate the model's gradients into the
master parameters. -/
noncomputable def copyGrads (source target : List Param) : List Param :=
  (target.zip source).map (fun q => { q.1 with grad := q.2.grad })

/-- Modelled from the spec: `copy_params(source, target)` of
`common.utils.fp16` — copy the updated master parameter values back
into the model's parameters. -/
noncomputable def copyParams (source target : List Param) : List Param :=
  (target.zip source).map (fun q => { q.1 with data := q.2.data })

/-- `optimizer["main"].param_groups[0]["params"]` as read back after the
step (the Python master list aliases these tensors). -/
def firstGroupParams (opts : List (String × Optim)) : List Param :=
  match lookupKey "main" opts with
  | some o =>
      match o.param_groups with
      | g :: _ => g.params
      | [] => []
  | none => []

/-- Reduced-precision branch of `BasicOptimizerCallback.on_batch_end`
(lines 457-491): when training, zero the model gradients; with no
optimizer nothing further happens; with more than one the assertion
`len(optimizer) == 1` fails; otherwise scale the loss, run backward
(`backward` models autograd), read the master parameters from
`optimizer["main"].param_groups[0]["params"]` (a missing `"main"` key
is a `KeyError`), copy the gradients onto them, unscale, run
`grad_step`, and copy the stepped master values back into the model
parameters. -/
noncomputable def optOnBatchEndFp16 (is_train : Bool) (wds : List (String × ℝ))
    (grad_clip : Option ℝ) (fp16_grad_scale : ℝ) (stepFn : ParamGroup → List Param)
    (backward : ℝ → List ℝ) (modelParams : List Param) (loss : ℝ)
    (optimizer : List (String × Optim)) :
    Except PyErr (List Param × List (String × Optim)) :=
  if !is_train then .ok (modelParams, optimizer)
  else
    let mp := zeroGradParams modelParams
    if optimizer.length = 0 then .ok (mp, optimizer)
    else if optimizer.length ≠ 1 then .error .assertionError
    else
      let mp1 := setGrads mp (backward (fp16_grad_scale * loss))
      match lookupKey "main" optimizer with
      | none => .error (.keyError "main")
      | some mainOpt =>
        match mainOpt.param_groups with
        | [] => .error .indexError
        | g0 :: gs =>
          let master1 := (copyGrads mp1 g0.params).map
            (fun p => { p with grad := p.grad * (1 / fp16_grad_scale) })
          let optimizer1 := optimizer.map (fun e =>
            if e.1 = "main" then (e.1, Optim.mk ({ g0 with params := master1 } :: gs)) else e)
          let optimizer2 := gradStep wds grad_clip stepFn optimizer1
          .ok (copyParams (firstGroupParams optimizer2) mp1, optimizer2)

/-- C9 counterexample: at fp16 training batch-end with ZERO configured
optimizers (a count that is "not exactly one"), no fatal configuration
error is raised: the hook returns normally, having only zeroed the
model gradients. -/
theorem fp16_zero_optimizers_counterexample :
    optOnBatchEndFp16 true [] none 128 (fun g => g.params) (fun _ => []) [⟨3, 7⟩] 0 []
      = .ok ([⟨3, 0⟩], []) := rfl

/-- C9 (amended): at reduced-precision (fp16) training batch-end, MORE
THAN ONE configured optimizer causes the fatal assertion error
(`fp16 mode works only with one optimizer for now`) and no parameter
update is performed; with zero configured optimizers no error is raised
and no parameter update is performed either — only the model's
gradients are zeroed, leaving all parameter values unchanged. -/
theorem fp16_optimizer_count_amended (wds : List (String × ℝ)) (grad_clip : Option ℝ)
    (scale : ℝ) (stepFn : ParamGroup → List Param) (backward : ℝ → List ℝ)
    (modelParams : List Param) (loss : ℝ) (optimizer : List (String × Optim)) :
    (2 ≤ optimizer.length →
      optOnBatchEndFp16 true wds grad_clip scale stepFn backward modelParams loss optimizer
        = .error .assertionError)
    ∧ (optimizer = [] →
      optOnBatchEndFp16 true wds grad_clip scale stepFn backward modelParams loss optimizer
        = .ok (zeroGradParams modelParams, optimizer)
      ∧ (zeroGradParams modelParams).map (fun p => p.data)
        = modelParams.map (fun p => p.data)) := by
  constructor
  · intro h2
    have hne0 : (optimizer.length = 0) = False := eq_false (by omega)
    have hne1 : (optimizer.length ≠ 1) = True := eq_true (by omega)
    simp [optOnBatchEndFp16, hne0, hne1]
  · intro h0
    subst h0
    refine ⟨rfl, ?_⟩
    unfold zeroGradParams
    rw [List.map_map]
    rfl

/-- Witness for the amended C9: two optimizers trigger the assertion
error; zero optimizers return normally. -/
theorem fp16_optimizer_count_amended_witness :
    optOnBatchEndFp16 true [] none 128 (fun g => g.params) (fun _ => []) [⟨3, 7⟩] 0
        [("a", ⟨[]⟩), ("b", ⟨[]⟩)] = .error .assertionError
    ∧ optOnBatchEndFp16 true [] none 128 (fun g => g.params) (fun _ => []) [⟨3, 7⟩] 0 []
        = .ok (zeroGradParams [⟨3, 7⟩], []) :=
  ⟨(fp16_optimizer_count_amended [] none 128 (fun g => g.params) (fun _ => []) [⟨3, 7⟩] 0
      [("a", ⟨[]⟩), ("b", ⟨[]⟩)]).1 (by simp),
   ((fp16_optimizer_count_amended [] none 128 (fun g => g.params) (fun _ => []) [⟨3, 7⟩] 0
      []).2 rfl).1⟩

theorem decayClipGroup_length (wd : ℝ) (clip : Option ℝ) (g : ParamGroup) :
    (decayClipGroup wd clip g).params.length = g.params.length := by
  unfold decayClipGroup
  cases clip with
  | none =>
      show (g.params.map _).length = _
      rw [List.length_map]
  | some c =>
      show (clipGradNorm c (g.params.map _)).length = _
      rw [clipGradNorm_length, List.length_map]

theorem copyParams_data (source target : List Param) (h : target.length = source.length) :
    (copyParams source target).map (fun p => p.data) = source.map (fun p => p.data) := by
  induction target generalizing source with
  | nil =>
      cases source with
      | nil => rfl
      | cons b bs => exact absurd h (by simp)
  | cons a as ih =>
      cases source with
      | nil => exact absurd h (by simp)
      | cons b bs =>
          show ((((a :: as).zip (b :: bs)).map _).map _) = _
          simp only [List.zip_cons_cons, List.map_cons]
          refine congrArg₂ List.cons rfl ?_
          exact ih bs (by simpa using h)

theorem firstGroupParams_gradStep_len (wds : List (String × ℝ)) (clip : Option ℝ)
    (stepFn : ParamGroup → List Param) (G0 : ParamGroup) (gs : List ParamGroup)
    (hsf : ∀ g, (stepFn g).length = g.params.length) :
    (firstGroupParams (gradStep wds clip stepFn [("main", Optim.mk (G0 :: gs))])).length
      = G0.params.length := by
  unfold gradStep
  simp only [List.map_cons, List.map_nil]
  unfold firstGroupParams
  rw [show lookupKey "main"
      [("main", optimStep stepFn (gradStepPre wds clip "main" (Optim.mk (G0 :: gs))))]
      = some (optimStep stepFn (gradStepPre wds clip "main" (Optim.mk (G0 :: gs)))) from by
    simp [lookupKey]]
  cases hlkw : lookupKey "main" wds with
  | none =>
      unfold gradStepPre
      simp only [hlkw]
      show (stepFn G0).length = _
      exact hsf G0
  | some w =>
      unfold gradStepPre
      simp only [hlkw]
      show (stepFn (decayClipGroup w clip G0)).length = _
      rw [hsf (decayClipGroup w clip G0), decayClipGroup_length]

/-- C10: at fp16 training batch-end with exactly one configured
optimizer, the update reads the optimizer under the literal key
`"main"` and takes the master parameters from that optimizer's first
parameter group — after the step the model parameter values are copied
back from exactly that first group; for every configuration in which
the single optimizer is registered under any other key, batch-end
fails with a `KeyError` lookup error instead of performing the
parameter update. -/
theorem fp16_main_key_correct (wds : List (String × ℝ)) (grad_clip : Option ℝ)
    (scale : ℝ) (stepFn : ParamGroup → List Param) (backward : ℝ → List ℝ)
    (modelParams : List Param) (loss : ℝ) (opt : Optim) (g0 : ParamGroup)
    (gs : List ParamGroup)
    (hg : opt.param_groups = g0 :: gs)
    (hsf : ∀ g, (stepFn g).length = g.params.length)
    (hbw : (backward (scale * loss)).length = modelParams.length)
    (hlen : g0.params.length = modelParams.length) :
    (∀ k, k ≠ "main" →
      optOnBatchEndFp16 true wds grad_clip scale stepFn backward modelParams loss [(k, opt)]
        = .error (.keyError "main"))
    ∧ ∃ mp2 opts2,
        optOnBatchEndFp16 true wds grad_clip scale stepFn backward modelParams loss
            [("main", opt)] = .ok (mp2, opts2)
        ∧ mp2.map (fun p => p.data) = (firstGroupParams opts2).map (fun p => p.data) := by
  constructor
  · intro k hk
    simp [optOnBatchEndFp16, lookupKey, hk]
  · set mp1 := setGrads (zeroGradParams modelParams) (backward (scale * loss)) with hmp1def
    set m1 := (copyGrads mp1 g0.params).map
      (fun p => ({ p with grad := p.grad * (1 / scale) } : Param)) with hm1def
    set opt2 := gradStep wds grad_clip stepFn
      [("main", Optim.mk ({ g0 with params := m1 } :: gs))] with hopt2def
    have hrun : optOnBatchEndFp16 true wds grad_clip scale stepFn backward modelParams loss
        [("main", opt)] = .ok (copyParams (firstGroupParams opt2) mp1, opt2) := by
      rw [hopt2def, hm1def, hmp1def]
      simp [optOnBatchEndFp16, lookupKey, hg]
    have hdlen : mp1.length = (firstGroupParams opt2).length := by
      rw [hopt2def,
        firstGroupParams_gradStep_len wds grad_clip stepFn { g0 with params := m1 } gs hsf]
      show mp1.length = m1.length
      rw [hm1def, hmp1def]
      simp [copyGrads, setGrads, zeroGradParams, List.length_zip, List.length_map,
        hbw, hlen, Nat.min_self]
    exact ⟨_, _, hrun, copyParams_data (firstGroupParams opt2) mp1 hdlen⟩

/-- Witness for C10: a single optimizer registered under the key
`"other"` makes the fp16 batch-end fail with the `"main"` lookup
error. -/
theorem fp16_main_key_correct_witness :
    optOnBatchEndFp16 true [] none 128 (fun g => g.params) (fun _ => [0]) [⟨2, 3⟩] 0
        [("other", ⟨[⟨1/100, none, [⟨5, 7⟩]⟩]⟩)] = .error (.keyError "main") :=
  (fp16_main_key_correct [] none 128 (fun g => g.params) (fun _ => [0]) [⟨2, 3⟩] 0
      ⟨[⟨1/100, none, [⟨5, 7⟩]⟩]⟩ ⟨1/100, none, [⟨5, 7⟩]⟩ []
      rfl (fun _ => rfl) rfl rfl).1 "other" (by decide)
